import Mathlib

/-!
Shallow embedding of the Rega_Lex_Learner repository:

* `search_bill_openstates` (dynamic OpenStates client, `src/unnamed/part_000`):
  a two-step fetch-and-format sequence.  The network is modelled by an
  oracle `Env` mapping the list request and each per-bill detail request to
  an outcome; response bodies are modelled as already-parsed JSON values.
  Python exceptions become the `Exc` type, `print` output becomes a list of
  structured `LogMsg` entries, and the detail GETs that were actually issued
  are collected in order in a `detailTrace`.

* `search_bill` (static hardcoded catalog, `src/keyword_search.py`).
-/

set_option autoImplicit false

namespace LexLearner

/-- Parsed JSON values, the model of `response.json()` results. -/
inductive Json where
  | null
  | str (s : String)
  | num (n : Int)
  | bool (b : Bool)
  | arr (elems : List Json)
  | obj (fields : List (String × Json))

/-- Python exceptions that can arise in `search_bill_openstates`, one
constructor per handler of the source plus the runtime errors
(`AttributeError`, `TypeError`, `IndexError`) that fall into the final
`except Exception` handler. -/
inductive Exc where
  | httpError (status : Nat)
  | connectionError
  | timeout
  | requestException
  | keyError (key : String)
  | attributeError
  | typeError
  | indexError

/-- Python truthiness (`if x:`) of a JSON value. -/
def Json.truthy : Json → Bool
  | .null => false
  | .str s => !s.isEmpty
  | .num n => n != 0
  | .bool b => b
  | .arr xs => !xs.isEmpty
  | .obj fs => !fs.isEmpty

/-- Python `d.get(k, default)`: attribute error on a non-dict receiver. -/
def pyGetD (j : Json) (k : String) (default : Json) : Except Exc Json :=
  match j with
  | .obj fs => .ok ((fs.lookup k).getD default)
  | _ => .error .attributeError

/-- Python `d[k]` with a string key: `KeyError` when the key is missing,
`TypeError` when the receiver is not subscriptable by a string. -/
def pySubscript (j : Json) (k : String) : Except Exc Json :=
  match j with
  | .obj fs =>
      match fs.lookup k with
      | some v => .ok v
      | none => .error (.keyError k)
  | _ => .error .typeError

/-- Python iteration (`for x in j`): lists yield elements, strings yield
one-character strings, dicts yield their keys, everything else raises
`TypeError`. -/
def pyIter : Json → Except Exc (List Json)
  | .arr xs => .ok xs
  | .str s => .ok (s.toList.map fun c => Json.str (String.mk [c]))
  | .obj fs => .ok (fs.map fun p => Json.str p.1)
  | _ => .error .typeError

/-- Python `j[-1]`, used in the source only behind a truthiness check. -/
def pyLast : Json → Except Exc Json
  | .arr xs =>
      match xs.getLast? with
      | some v => .ok v
      | none => .error .indexError
  | .str s =>
      match s.toList.getLast? with
      | some c => .ok (.str (String.mk [c]))
      | none => .error .indexError
  | .obj _ => .error (.keyError "-1")
  | _ => .error .typeError

/-- Elements of a joined list must all be strings (`TypeError` otherwise). -/
def asStrings : List Json → Except Exc (List String)
  | [] => .ok []
  | .str s :: rest =>
      match asStrings rest with
      | .error e => .error e
      | .ok ss => .ok (s :: ss)
  | _ :: _ => .error .typeError

/-- Python `sep.join(xs)`. -/
def pyJoin (sep : String) (xs : List Json) : Except Exc String :=
  match asStrings xs with
  | .error e => .error e
  | .ok ss => .ok (String.intercalate sep ss)

/-- ASCII model of Python `str.upper()`. -/
def pyUpper (s : String) : String := String.mk (s.toList.map Char.toUpper)

/-- ASCII model of Python `str.lower()`. -/
def pyLower (s : String) : String := String.mk (s.toList.map Char.toLower)

/-- Outcome of one `requests.get` call: a response with a status code and a
parsed JSON body, or one of the transport-level failures. -/
inductive HttpResult where
  | resp (status : Nat) (body : Json)
  | connError
  | timeoutErr
  | reqError

/-- Network oracle: the outcome of the list search request and, for each
bill id value, the outcome of the detail request `GET {base}/bills/{id}`. -/
structure Env where
  listResult : HttpResult
  detailResult : Json → HttpResult

/-- `requests.get` followed by `raise_for_status()` (which raises
`HTTPError` exactly for status codes in 4xx/5xx) and `.json()`. -/
def doRequest : HttpResult → Except Exc Json
  | .resp status body =>
      if 400 ≤ status ∧ status < 600 then .error (.httpError status) else .ok body
  | .connError => .error .connectionError
  | .timeoutErr => .error .timeout
  | .reqError => .error .requestException

/-- One structured entry per `print` statement of the source. -/
inductive LogMsg where
  | searching (keyword jurisdiction session : String)
  | noInitialBills (keyword jurisdiction : String)
  | httpErrorOccurred (statusCode : Nat)
  | checkApiKey
  | connectionErrorOccurred
  | checkInternet
  | timeoutOccurred
  | serverTooLong
  | unexpectedRequestError
  | missingKey (key : String)
  | rawPayload (data : Json)
  | unknownError

/-- The formatted bill dictionary appended to `formatted_results`
(source lines 90–98).  `subjects` is always a Python `str`, the other
values are whatever JSON the detail response supplied. -/
structure BillRecord where
  identifier : Json
  title : Json
  status : Json
  subjects : String
  abstract : Json
  openstates_url : Json
  classification : Json

/-- Source lines 75–79: the latest-action text for the `status` field. -/
def statusText (actions : Json) : Except Exc Json :=
  if actions.truthy then
    match pyLast actions with
    | .error e => .error e
    | .ok lastAction => pyGetD lastAction "description" (.str "No description.")
  else .ok (.str "No recent action found.")

/-- The list comprehension of source line 82:
`[s.get("name", "") for s in elems if s.get("name")]`. -/
def filterNames : List Json → Except Exc (List Json)
  | [] => .ok []
  | s :: rest =>
      match pyGetD s "name" .null with
      | .error e => .error e
      | .ok cond =>
        if cond.truthy then
          match pyGetD s "name" (.str "") with
          | .error e => .error e
          | .ok v =>
            match filterNames rest with
            | .error e => .error e
            | .ok vs => .ok (v :: vs)
        else filterNames rest

/-- Source line 82 as a whole: iterate `detail_data.get("subjects", [])`
and keep the truthy names. -/
def subjectNames (subjectsRaw : Json) : Except Exc (List Json) :=
  match pyIter subjectsRaw with
  | .error e => .error e
  | .ok elems => filterNames elems

/-- Source line 94: `", ".join(subjects) if subjects else "N/A"`. -/
def subjectsDisplay (subjects : List Json) : Except Exc String :=
  if subjects.isEmpty then .ok "N/A" else pyJoin ", " subjects

/-- Field extraction and formatting for one detail response
(source lines 71–98), in source evaluation order. -/
def formatBill (detail_data : Json) : Except Exc BillRecord :=
  match pyGetD detail_data "title" (.str "N/A") with
  | .error e => .error e
  | .ok title =>
    match pyGetD detail_data "identifier" (.str "N/A") with
    | .error e => .error e
    | .ok identifier =>
      match pyGetD detail_data "actions" (.arr []) with
      | .error e => .error e
      | .ok actions =>
        match statusText actions with
        | .error e => .error e
        | .ok latest_action_text =>
          match pyGetD detail_data "subjects" (.arr []) with
          | .error e => .error e
          | .ok subjectsRaw =>
            match subjectNames subjectsRaw with
            | .error e => .error e
            | .ok subjects =>
              match pyGetD detail_data "abstract" (.str "No abstract available.") with
              | .error e => .error e
              | .ok abstract_text =>
                match pyGetD detail_data "openstates_url" (.str "No URL available.") with
                | .error e => .error e
                | .ok openstates_url =>
                  match pyGetD detail_data "classification" (.str "N/A") with
                  | .error e => .error e
                  | .ok classification =>
                    match subjectsDisplay subjects with
                    | .error e => .error e
                    | .ok subjectsStr =>
                      .ok { identifier := identifier
                            title := title
                            status := latest_action_text
                            subjects := subjectsStr
                            abstract := abstract_text
                            openstates_url := openstates_url
                            classification := classification }

/-- The detail-fetch loop of source lines 59–98.  `i` is the `enumerate`
counter, `acc` is `formatted_results`, and the returned `List Json` is the
trace of bill ids whose detail GET was actually issued, in issue order
(an id is traced even when its request fails; a `KeyError` on `bill["id"]`
issues no request). -/
def processBills (env : Env) (limit : Int) :
    List Json → Nat → List BillRecord → List Json → List Json × Except Exc (List BillRecord)
  | [], _, acc, trace => (trace, .ok acc)
  | bill :: rest, i, acc, trace =>
    if (i : Int) ≥ limit then (trace, .ok acc)
    else
      match pySubscript bill "id" with
      | .error e => (trace, .error e)
      | .ok billId =>
        match doRequest (env.detailResult billId) with
        | .error e => (trace ++ [billId], .error e)
        | .ok detailData =>
          match formatBill detailData with
          | .error e => (trace ++ [billId], .error e)
          | .ok rec => processBills env limit rest (i + 1) (acc ++ [rec]) (trace ++ [billId])

/-- The `try` block of `search_bill_openstates` (source lines 45–99):
in-body log entries, detail-fetch trace, and either the formatted results
or the exception that aborted the body. -/
def searchBody (env : Env) (keyword jurisdiction : String) (limit : Int) :
    List LogMsg × List Json × Except Exc (List BillRecord) :=
  match doRequest env.listResult with
  | .error e => ([], [], .error e)
  | .ok data =>
    match pyGetD data "results" (.arr []) with
    | .error e => ([], [], .error e)
    | .ok bills_found =>
      if !bills_found.truthy then
        ([.noInitialBills keyword (pyUpper jurisdiction)], [], .ok [])
      else
        match pyIter bills_found with
        | .error e => ([], [], .error e)
        | .ok bills =>
          let r := processBills env limit bills 0 [] []
          ([], r.1, r.2)

/-- Status code of the list response, the value of `response.status_code`.
In the `except` handlers of the source, `response` is always the variable bound
by the FIRST request (line 47); an `HTTPError` or `KeyError` can only be
raised after that request returned a response, so the `.resp` branch is the
only reachable one there. -/
def listStatus (env : Env) : Nat :=
  match env.listResult with
  | .resp s _ => s
  | _ => 0

/-- Body of the list response, the value of the variable `data` as read by
the `KeyError` handler (source line 119). -/
def listBody (env : Env) : Json :=
  match env.listResult with
  | .resp _ b => b
  | _ => .null

/-- The `except` handlers of source lines 101–123.  Note line 103 tests
`response.status_code` — the status of the LIST response — even when the
`HTTPError` was raised by a detail fetch. -/
def handlerLogs (env : Env) : Exc → List LogMsg
  | .httpError _ =>
      if listStatus env = 401 ∨ listStatus env = 403 then
        [.httpErrorOccurred (listStatus env), .checkApiKey]
      else
        [.httpErrorOccurred (listStatus env)]
  | .connectionError => [.connectionErrorOccurred, .checkInternet]
  | .timeout => [.timeoutOccurred, .serverTooLong]
  | .requestException => [.unexpectedRequestError]
  | .keyError k => [.missingKey k, .rawPayload (listBody env)]
  | .attributeError => [.unknownError]
  | .typeError => [.unknownError]
  | .indexError => [.unknownError]

/-- Observable outcome of one `search_bill_openstates` call: the returned
list, the printed log, and the ordered trace of detail GETs issued. -/
structure SearchOutcome where
  results : List BillRecord
  logs : List LogMsg
  detailTrace : List Json

/-- `search_bill_openstates(keyword, jurisdiction="ga", session="current",
limit=20)`, source lines 10–123.  The function never raises: every
exception of the body is converted by a handler into an empty result list
plus log output. -/
def search_bill_openstates (env : Env) (keyword : String) (jurisdiction : String := "ga")
    (session : String := "current") (limit : Int := 20) : SearchOutcome :=
  let pre := LogMsg.searching keyword (pyUpper jurisdiction) session
  match searchBody env keyword jurisdiction limit with
  | (blogs, trace, .ok recs) => ⟨recs, pre :: blogs, trace⟩
  | (blogs, trace, .error e) => ⟨[], pre :: (blogs ++ handlerLogs env e), trace⟩

/-- One successful iteration of the detail loop, as a pure step: the id
extracted from the search-result entry together with the formatted record,
or `none` when any part of the iteration raises. -/
def stepOk (env : Env) (bill : Json) : Option (Json × BillRecord) :=
  match pySubscript bill "id" with
  | .error _ => none
  | .ok billId =>
    match doRequest (env.detailResult billId) with
    | .error _ => none
    | .ok detailData =>
      match formatBill detailData with
      | .error _ => none
      | .ok rec => some (billId, rec)

/-- `stepOk` over a whole list of search-result entries; `none` as soon as
one iteration fails. -/
def stepAll (env : Env) : List Json → Option (List (Json × BillRecord))
  | [] => some []
  | b :: rest =>
    match stepOk env b with
    | none => none
    | some p =>
      match stepAll env rest with
      | none => none
      | some ps => some (p :: ps)

/-- Record shape of the hardcoded V1 catalog (`src/keyword_search.py`). -/
structure StaticBill where
  title : String
  status : String
  bill_id : String

/-- Substring containment on character lists. -/
def listContains (needle : List Char) : List Char → Bool
  | [] => needle.isEmpty
  | c :: rest => needle.isPrefixOf (c :: rest) || listContains needle rest

/-- Python `needle in haystack` for strings. -/
def strContains (needle haystack : String) : Bool :=
  listContains needle.toList haystack.toList

/-- `search_bill(keyword)` from `src/keyword_search.py`, lines 2–21. -/
def search_bill (keyword : String) : List StaticBill :=
  if strContains "climate" (pyLower keyword) then
    [⟨"Clean Air Act Amendment of 2025", "Passed House, Awaiting Senate Vote", "hr3684"⟩,
     ⟨"Climate Change Mitigation Bill", "Introduced", "s1234"⟩]
  else if strContains "education" (pyLower keyword) then
    [⟨"Student Loan Forgiveness Act", "In Committee", "hr5678"⟩]
  else
    []

/-- Concrete oracle exhibiting the stale `response` in the `HTTPError`
handler: the list search succeeds with status 200 and one result, the
detail fetch for that bill answers 401. -/
def envAuthBug : Env :=
  { listResult := .resp 200 (.obj [("results", .arr [.obj [("id", .str "b1")]])]),
    detailResult := fun _ => .resp 401 (.obj []) }

/-- Oracle whose list response carries no `results` key. -/
def envNoResults : Env :=
  { listResult := .resp 200 (.obj [("extra", .num 1)]),
    detailResult := fun _ => .resp 200 (.obj []) }

/-- Oracle whose list request fails at the transport level. -/
def envConnFail : Env :=
  { listResult := .connError,
    detailResult := fun _ => .resp 200 (.obj []) }

/-- Oracle with three search results whose detail fetches all succeed. -/
def envThree : Env :=
  { listResult := .resp 200 (.obj [("results",
      .arr [.obj [("id", .str "a")], .obj [("id", .str "b")], .obj [("id", .str "c")]])]),
    detailResult := fun _ => .resp 200 (.obj []) }

/-- The all-defaults record produced from an empty-object detail body. -/
def defaultRecord : BillRecord :=
  ⟨.str "N/A", .str "N/A", .str "No recent action found.", "N/A",
   .str "No abstract available.", .str "No URL available.", .str "N/A"⟩

/-- Oracle where the first detail fetch succeeds and the second answers
HTTP 500. -/
def envSecondFails : Env :=
  { listResult := .resp 200 (.obj [("results",
      .arr [.obj [("id", .str "a")], .obj [("id", .str "b")]])]),
    detailResult := fun j =>
      match j with
      | .str "b" => .resp 500 (.obj [])
      | _ => .resp 200 (.obj []) }

/-- A `subjects` entry of the detail response, viewed by its optional
`name` string. -/
def subjectEntry : Option String → Json
  | some n => .obj [("name", .str n)]
  | none => .obj []

/- ------------------------------------------------------------------ -/
/- Theorems                                                           -/
/- ------------------------------------------------------------------ -/

/-- Unfolding of the body on the main path: the list request returned a
non-4xx/5xx response whose `results` is a non-empty array. -/
theorem searchBody_eq_loop (env : Env) (k j : String) (limit : Int) (s : Nat)
    (fields : List (String × Json)) (bills : List Json)
    (hl : env.listResult = .resp s (.obj fields))
    (hs : ¬(400 ≤ s ∧ s < 600))
    (hr : fields.lookup "results" = some (.arr bills))
    (hb : bills ≠ []) :
    searchBody env k j limit =
      ([], (processBills env limit bills 0 [] []).1, (processBills env limit bills 0 [] []).2) := by
  obtain ⟨b, bs, rfl⟩ : ∃ b bs, bills = b :: bs := by
    cases bills with
    | nil => exact absurd rfl hb
    | cons b bs => exact ⟨b, bs, rfl⟩
  simp [searchBody, hl, doRequest, hs, pyGetD, hr, Json.truthy, pyIter]

/-- C6: a list response whose `results` array is missing or empty makes
`search_bill_openstates` return an empty sequence immediately, with no
detail fetch issued and only the two informational log messages (it is
not routed through any error handler). -/
theorem search_empty_results_short_circuit (env : Env) (k j sess : String) (limit : Int)
    (s : Nat) (fields : List (String × Json))
    (hl : env.listResult = .resp s (.obj fields))
    (hs : ¬(400 ≤ s ∧ s < 600))
    (hr : fields.lookup "results" = none ∨ fields.lookup "results" = some (.arr [])) :
    search_bill_openstates env k j sess limit =
      ⟨[], [.searching k (pyUpper j) sess, .noInitialBills k (pyUpper j)], []⟩ := by
  rcases hr with hr | hr <;>
    simp [search_bill_openstates, searchBody, hl, doRequest, hs, pyGetD, hr, Json.truthy]

/-- Witness for `search_empty_results_short_circuit` at a concrete oracle
whose list body has no `results` key. -/
theorem search_empty_results_short_circuit_witness :
    search_bill_openstates envNoResults "tax" "ga" "current" 20 =
      ⟨[], [.searching "tax" "GA" "current", .noInitialBills "tax" "GA"], []⟩ :=
  search_empty_results_short_circuit envNoResults "tax" "ga" "current" 20 200
    [("extra", .num 1)] rfl (by omega) (Or.inl rfl)

/-- C10: with a non-positive `limit` the detail loop breaks at once
(`i >= limit` holds for `i = 0`), so the call returns an empty sequence
and issues no detail fetch, even though the list response had results. -/
theorem search_nonpositive_limit_empty (env : Env) (k j sess : String) (limit : Int)
    (s : Nat) (fields : List (String × Json)) (bills : List Json)
    (hlim : limit ≤ 0)
    (hl : env.listResult = .resp s (.obj fields))
    (hs : ¬(400 ≤ s ∧ s < 600))
    (hr : fields.lookup "results" = some (.arr bills))
    (hb : bills ≠ []) :
    (search_bill_openstates env k j sess limit).results = [] ∧
    (search_bill_openstates env k j sess limit).detailTrace = [] := by
  have hbody := searchBody_eq_loop env k j limit s fields bills hl hs hr hb
  obtain ⟨b, bs, rfl⟩ : ∃ b bs, bills = b :: bs := by
    cases bills with
    | nil => exact absurd rfl hb
    | cons b bs => exact ⟨b, bs, rfl⟩
  have hloop : processBills env limit (b :: bs) 0 [] [] = ([], .ok []) := by
    simp only [processBills]
    split
    · rfl
    · next h => exact absurd (by omega) h
  rw [hloop] at hbody
  constructor <;> simp [search_bill_openstates, hbody]

/-- Witness for `search_nonpositive_limit_empty`: limit 0 with three
available results. -/
theorem search_nonpositive_limit_empty_witness :
    (search_bill_openstates envThree "k" "ga" "current" 0).results = [] ∧
    (search_bill_openstates envThree "k" "ga" "current" 0).detailTrace = [] :=
  search_nonpositive_limit_empty envThree "k" "ga" "current" 0 200
    [("results", .arr [.obj [("id", .str "a")], .obj [("id", .str "b")], .obj [("id", .str "c")]])]
    [.obj [("id", .str "a")], .obj [("id", .str "b")], .obj [("id", .str "c")]]
    (by omega) rfl (by omega) rfl (by simp)

/-- C7: whenever the body of the `try` block raises any of the modelled
exceptions, `search_bill_openstates` returns an empty sequence and the
matching handler appends at least one log message; the function itself is
total, so no exception escapes to the caller. -/
theorem search_catches_all_errors (env : Env) (k j sess : String) (limit : Int)
    (e : Exc) (blogs : List LogMsg) (trace : List Json)
    (hbody : searchBody env k j limit = (blogs, trace, .error e)) :
    (search_bill_openstates env k j sess limit).results = [] ∧
    (search_bill_openstates env k j sess limit).logs =
      .searching k (pyUpper j) sess :: (blogs ++ handlerLogs env e) ∧
    handlerLogs env e ≠ [] := by
  refine ⟨?_, ?_, ?_⟩
  · simp [search_bill_openstates, hbody]
  · simp [search_bill_openstates, hbody]
  · cases e
    all_goals simp only [handlerLogs]
    all_goals try split
    all_goals simp

/-- Witness for `search_catches_all_errors`: a connection failure on the
list request. -/
theorem search_catches_all_errors_witness :
    (search_bill_openstates envConnFail "k" "ga" "current" 20).results = [] ∧
    (search_bill_openstates envConnFail "k" "ga" "current" 20).logs =
      .searching "k" (pyUpper "ga") "current" :: ([] ++ handlerLogs envConnFail .connectionError) ∧
    handlerLogs envConnFail .connectionError ≠ [] :=
  search_catches_all_errors envConnFail "k" "ga" "current" 20 .connectionError [] [] rfl

/-- C1 (code bug): the `HTTPError` handler tests `response.status_code`,
the status of the LIST response (source line 103), even when the error was
raised by a per-bill detail fetch.  With the list call succeeding at 200
and the detail call answering 401, the search returns an empty sequence
but the log shows status 200 and never contains the API-key hint. -/
theorem detail_auth_error_hint_missing :
    (search_bill_openstates envAuthBug "privacy" "ga" "current" 20).results = [] ∧
    (search_bill_openstates envAuthBug "privacy" "ga" "current" 20).detailTrace = [.str "b1"] ∧
    (search_bill_openstates envAuthBug "privacy" "ga" "current" 20).logs =
      [.searching "privacy" "GA" "current", .httpErrorOccurred 200] ∧
    LogMsg.checkApiKey ∉ (search_bill_openstates envAuthBug "privacy" "ga" "current" 20).logs := by
  refine ⟨rfl, rfl, rfl, ?_⟩
  have h : (search_bill_openstates envAuthBug "privacy" "ga" "current" 20).logs =
      [.searching "privacy" "GA" "current", .httpErrorOccurred 200] := rfl
  rw [h]
  simp

/-- C8: the static catalog checks `"climate" in keyword.lower()` first,
then `"education"`, and returns the corresponding fixed list literals,
otherwise the empty list; in particular for "climate change" and
"unrelated". -/
theorem static_search_bill_cases (keyword : String) :
    (strContains "climate" (pyLower keyword) = true →
      search_bill keyword =
        [⟨"Clean Air Act Amendment of 2025", "Passed House, Awaiting Senate Vote", "hr3684"⟩,
         ⟨"Climate Change Mitigation Bill", "Introduced", "s1234"⟩]) ∧
    (strContains "climate" (pyLower keyword) = false →
      strContains "education" (pyLower keyword) = true →
      search_bill keyword = [⟨"Student Loan Forgiveness Act", "In Committee", "hr5678"⟩]) ∧
    (strContains "climate" (pyLower keyword) = false →
      strContains "education" (pyLower keyword) = false →
      search_bill keyword = []) ∧
    search_bill "climate change" =
      [⟨"Clean Air Act Amendment of 2025", "Passed House, Awaiting Senate Vote", "hr3684"⟩,
       ⟨"Climate Change Mitigation Bill", "Introduced", "s1234"⟩] ∧
    search_bill "unrelated" = [] := by
  refine ⟨fun hc => ?_, fun hc he => ?_, fun hc he => ?_, rfl, rfl⟩
  · simp [search_bill, hc]
  · simp [search_bill, hc, he]
  · simp [search_bill, hc, he]

/-- Witness for `static_search_bill_cases`: the climate branch taken at
the concrete keyword "climate change". -/
theorem static_search_bill_cases_witness :
    strContains "climate" (pyLower "climate change") = true ∧
    search_bill "climate change" =
      [⟨"Clean Air Act Amendment of 2025", "Passed House, Awaiting Senate Vote", "hr3684"⟩,
       ⟨"Climate Change Mitigation Bill", "Introduced", "s1234"⟩] :=
  ⟨rfl, (static_search_bill_cases "climate change").1 rfl⟩

/-- When every iteration of the detail loop up to the remaining budget
`(limit - i).toNat` succeeds, `processBills` appends exactly the traced
ids and formatted records of those iterations, in order. -/
theorem processBills_of_stepAll_some (env : Env) (limit : Int) :
    ∀ (bills : List Json) (i : Nat) (acc : List BillRecord) (trace : List Json)
      (pairs : List (Json × BillRecord)),
      stepAll env (bills.take (limit - i).toNat) = some pairs →
      processBills env limit bills i acc trace =
        (trace ++ pairs.map Prod.fst, .ok (acc ++ pairs.map Prod.snd)) := by
  intro bills
  induction bills with
  | nil =>
      intro i acc trace pairs h
      simp only [List.take_nil, stepAll, Option.some.injEq] at h
      subst h
      simp [processBills]
  | cons b rest ih =>
      intro i acc trace pairs h
      by_cases hge : (i : Int) ≥ limit
      · have h0 : (limit - (i : Int)).toNat = 0 := by omega
        rw [h0, List.take_zero] at h
        simp only [stepAll, Option.some.injEq] at h
        subst h
        simp only [processBills]
        rw [if_pos hge]
        simp
      · have h1 : (limit - (i : Int)).toNat = (limit - ((i : Int) + 1)).toNat + 1 := by omega
        rw [h1, List.take_succ_cons] at h
        simp only [stepAll] at h
        rcases hstep : stepOk env b with _ | p
        · rw [hstep] at h; exact absurd h (by simp)
        · rw [hstep] at h
          rcases hrest : stepAll env (rest.take (limit - ((i : Int) + 1)).toNat) with _ | ps
          · rw [hrest] at h; exact absurd h (by simp)
          · rw [hrest] at h
            simp only [Option.some.injEq] at h
            subst h
            simp only [stepOk] at hstep
            rcases hsub : pySubscript b "id" with e | billId
            · simp only [hsub] at hstep
              exact Option.noConfusion hstep
            · simp only [hsub] at hstep
              rcases hreq : doRequest (env.detailResult billId) with e | detailData
              · simp only [hreq] at hstep
                exact Option.noConfusion hstep
              · simp only [hreq] at hstep
                rcases hfmt : formatBill detailData with e | rec
                · simp only [hfmt] at hstep
                  exact Option.noConfusion hstep
                · simp only [hfmt, Option.some.injEq] at hstep
                  subst hstep
                  have hrec := ih (i + 1) (acc ++ [rec]) (trace ++ [billId]) ps
                    (by rw [show ((i + 1 : Nat) : Int) = (i : Int) + 1 by push_cast; ring]; exact hrest)
                  simp only [processBills, if_neg hge, hsub, hreq, hfmt, hrec]
                  simp

/-- A fully successful run of the loop body produces one pair per
processed entry. -/
theorem stepAll_length (env : Env) :
    ∀ (l : List Json) (ps : List (Json × BillRecord)),
      stepAll env l = some ps → ps.length = l.length := by
  intro l
  induction l with
  | nil =>
      intro ps h
      simp only [stepAll, Option.some.injEq] at h
      subst h; rfl
  | cons b rest ih =>
      intro ps h
      simp only [stepAll] at h
      rcases hstep : stepOk env b with _ | p <;> rw [hstep] at h
      · exact absurd h (by simp)
      · rcases hrest : stepAll env rest with _ | qs <;> rw [hrest] at h
        · exact absurd h (by simp)
        · simp only [Option.some.injEq] at h
          subst h
          simp [ih qs hrest]

/-- When some iteration of the detail loop within the remaining budget
fails, `processBills` aborts with that exception. -/
theorem processBills_of_stepAll_none (env : Env) (limit : Int) :
    ∀ (bills : List Json) (i : Nat) (acc : List BillRecord) (trace : List Json),
      stepAll env (bills.take (limit - i).toNat) = none →
      ∃ e tr, processBills env limit bills i acc trace = (tr, .error e) := by
  intro bills
  induction bills with
  | nil =>
      intro i acc trace h
      simp [stepAll] at h
  | cons b rest ih =>
      intro i acc trace h
      by_cases hge : (i : Int) ≥ limit
      · have h0 : (limit - (i : Int)).toNat = 0 := by omega
        rw [h0, List.take_zero] at h
        simp [stepAll] at h
      · have h1 : (limit - (i : Int)).toNat = (limit - ((i : Int) + 1)).toNat + 1 := by omega
        rw [h1, List.take_succ_cons] at h
        simp only [stepAll] at h
        rcases hstep : stepOk env b with _ | p
        · simp only [stepOk] at hstep
          rcases hsub : pySubscript b "id" with e | billId
          · refine ⟨e, trace, ?_⟩
            simp only [processBills, if_neg hge, hsub]
          · simp only [hsub] at hstep
            rcases hreq : doRequest (env.detailResult billId) with e | detailData
            · refine ⟨e, trace ++ [billId], ?_⟩
              simp only [processBills, if_neg hge, hsub, hreq]
            · simp only [hreq] at hstep
              rcases hfmt : formatBill detailData with e | rec
              · refine ⟨e, trace ++ [billId], ?_⟩
                simp only [processBills, if_neg hge, hsub, hreq, hfmt]
              · simp only [hfmt] at hstep
                exact Option.noConfusion hstep
        · rcases hrest : stepAll env (rest.take (limit - ((i : Int) + 1)).toNat) with _ | ps
          · simp only [stepOk] at hstep
            rcases hsub : pySubscript b "id" with e | billId
            · simp only [hsub] at hstep
              exact Option.noConfusion hstep
            · simp only [hsub] at hstep
              rcases hreq : doRequest (env.detailResult billId) with e | detailData
              · simp only [hreq] at hstep
                exact Option.noConfusion hstep
              · simp only [hreq] at hstep
                rcases hfmt : formatBill detailData with e | rec
                · simp only [hfmt] at hstep
                  exact Option.noConfusion hstep
                · obtain ⟨e, tr, hrec⟩ := ih (i + 1) (acc ++ [rec]) (trace ++ [billId])
                    (by rw [show ((i + 1 : Nat) : Int) = (i : Int) + 1 by push_cast; ring]; exact hrest)
                  refine ⟨e, tr, ?_⟩
                  simp only [hfmt, Option.some.injEq] at hstep
                  subst hstep
                  simp only [processBills, if_neg hge, hsub, hreq, hfmt, hrec]
          · rw [hstep, hrest] at h
            exact Option.noConfusion h

/-- C2: on a successful search whose list response holds the array
`bills` and whose limit is `limit`, the detail GETs issued are exactly
those for the first `min bills.length limit.toNat` entries, in the order
of the `results` array, and the returned records are their formatted
details in that same order. -/
theorem search_detail_fetch_count_and_order (env : Env) (k j sess : String) (limit : Int)
    (s : Nat) (fields : List (String × Json)) (bills : List Json)
    (pairs : List (Json × BillRecord))
    (hl : env.listResult = .resp s (.obj fields))
    (hs : ¬(400 ≤ s ∧ s < 600))
    (hr : fields.lookup "results" = some (.arr bills))
    (hb : bills ≠ [])
    (hall : stepAll env (bills.take limit.toNat) = some pairs) :
    (search_bill_openstates env k j sess limit).detailTrace = pairs.map Prod.fst ∧
    (search_bill_openstates env k j sess limit).results = pairs.map Prod.snd ∧
    (search_bill_openstates env k j sess limit).detailTrace.length =
      min bills.length limit.toNat := by
  have hbody := searchBody_eq_loop env k j limit s fields bills hl hs hr hb
  have hloop := processBills_of_stepAll_some env limit bills 0 [] [] pairs
    (by simpa using hall)
  rw [hloop] at hbody
  have hlen : pairs.length = (bills.take limit.toNat).length :=
    stepAll_length env _ pairs hall
  refine ⟨?_, ?_, ?_⟩
  · simp [search_bill_openstates, hbody]
  · simp [search_bill_openstates, hbody]
  · simp [search_bill_openstates, hbody, hlen, List.length_take, Nat.min_comm]

/-- Witness for `search_detail_fetch_count_and_order`: three results and
limit 2 give exactly the first two detail fetches, in order. -/
theorem search_detail_fetch_count_and_order_witness :
    (search_bill_openstates envThree "k" "ga" "current" 2).detailTrace =
      [.str "a", .str "b"] ∧
    (search_bill_openstates envThree "k" "ga" "current" 2).results =
      [defaultRecord, defaultRecord] ∧
    (search_bill_openstates envThree "k" "ga" "current" 2).detailTrace.length = 2 := by
  have h := search_detail_fetch_count_and_order envThree "k" "ga" "current" 2 200
    [("results", .arr [.obj [("id", .str "a")], .obj [("id", .str "b")], .obj [("id", .str "c")]])]
    [.obj [("id", .str "a")], .obj [("id", .str "b")], .obj [("id", .str "c")]]
    [(.str "a", defaultRecord), (.str "b", defaultRecord)]
    rfl (by omega) rfl (by simp) rfl
  exact ⟨h.1, h.2.1, h.2.2⟩

/-- C3: if any iteration of the detail loop within the limit fails (for
any reason: missing `id`, transport error, HTTP error, or a formatting
exception), the whole search returns an empty sequence — even when
earlier detail fetches had already produced records. -/
theorem search_detail_failure_returns_empty (env : Env) (k j sess : String) (limit : Int)
    (s : Nat) (fields : List (String × Json)) (bills : List Json)
    (hl : env.listResult = .resp s (.obj fields))
    (hs : ¬(400 ≤ s ∧ s < 600))
    (hr : fields.lookup "results" = some (.arr bills))
    (hb : bills ≠ [])
    (hfail : stepAll env (bills.take limit.toNat) = none) :
    (search_bill_openstates env k j sess limit).results = [] := by
  have hbody := searchBody_eq_loop env k j limit s fields bills hl hs hr hb
  obtain ⟨e, tr, hloop⟩ := processBills_of_stepAll_none env limit bills 0 [] []
    (by simpa using hfail)
  rw [hloop] at hbody
  simp [search_bill_openstates, hbody]

/-- Witness for `search_detail_failure_returns_empty`: the first detail
fetch succeeds, the second answers HTTP 500, and no partial record is
returned. -/
theorem search_detail_failure_returns_empty_witness :
    stepOk envSecondFails (.obj [("id", .str "a")]) = some (.str "a", defaultRecord) ∧
    (search_bill_openstates envSecondFails "k" "ga" "current" 20).results = [] := by
  refine ⟨rfl, ?_⟩
  exact search_detail_failure_returns_empty envSecondFails "k" "ga" "current" 20 200
    [("results", .arr [.obj [("id", .str "a")], .obj [("id", .str "b")]])]
    [.obj [("id", .str "a")], .obj [("id", .str "b")]]
    rfl (by omega) rfl (by simp) rfl

/-- Decomposition of a successful `formatBill` run on an object body: the
three fallible sub-computations succeeded and the record is assembled
field-by-field with the documented defaults. -/
theorem formatBill_ok_elim (fields : List (String × Json)) (r : BillRecord)
    (h : formatBill (.obj fields) = .ok r) :
    ∃ st subs sd,
      statusText ((fields.lookup "actions").getD (.arr [])) = .ok st ∧
      subjectNames ((fields.lookup "subjects").getD (.arr [])) = .ok subs ∧
      subjectsDisplay subs = .ok sd ∧
      r = ⟨(fields.lookup "identifier").getD (.str "N/A"),
           (fields.lookup "title").getD (.str "N/A"),
           st, sd,
           (fields.lookup "abstract").getD (.str "No abstract available."),
           (fields.lookup "openstates_url").getD (.str "No URL available."),
           (fields.lookup "classification").getD (.str "N/A")⟩ := by
  simp only [formatBill, pyGetD] at h
  rcases hst : statusText ((fields.lookup "actions").getD (.arr [])) with e | st
  · simp only [hst] at h
    exact Except.noConfusion h
  · simp only [hst] at h
    rcases hsn : subjectNames ((fields.lookup "subjects").getD (.arr [])) with e | subs
    · simp only [hsn] at h
      exact Except.noConfusion h
    · simp only [hsn] at h
      rcases hsd : subjectsDisplay subs with e | sd
      · simp only [hsd] at h
        exact Except.noConfusion h
      · simp only [hsd, Except.ok.injEq] at h
        exact ⟨st, subs, sd, rfl, rfl, hsd, h.symm⟩

/-- C4: the `status` field is "No recent action found." when the `actions`
list is absent or empty, and the `description` of the last element when
the list is non-empty and its last element carries one. -/
theorem record_status_from_actions (fields : List (String × Json)) (r : BillRecord)
    (h : formatBill (.obj fields) = .ok r) :
    ((fields.lookup "actions" = none ∨ fields.lookup "actions" = some (.arr [])) →
      r.status = .str "No recent action found.") ∧
    (∀ acts lf d, fields.lookup "actions" = some (.arr acts) →
      acts.getLast? = some (.obj lf) → lf.lookup "description" = some d →
      r.status = d) := by
  obtain ⟨st, subs, sd, hst, hsn, hsd, hr⟩ := formatBill_ok_elim fields r h
  subst hr
  constructor
  · rintro (hc | hc)
    · rw [hc] at hst
      simp only [Option.getD_none] at hst
      rw [show statusText (Json.arr []) = Except.ok (Json.str "No recent action found.") from rfl]
        at hst
      simp only [Except.ok.injEq] at hst
      exact hst.symm
    · rw [hc] at hst
      simp only [Option.getD_some] at hst
      rw [show statusText (Json.arr []) = Except.ok (Json.str "No recent action found.") from rfl]
        at hst
      simp only [Except.ok.injEq] at hst
      exact hst.symm
  · intro acts lf d hc hlast hd
    rw [hc] at hst
    simp only [Option.getD_some] at hst
    obtain ⟨a, as, rfl⟩ : ∃ a as, acts = a :: as := by
      cases acts with
      | nil => exact absurd hlast (by simp)
      | cons a as => exact ⟨a, as, rfl⟩
    simp only [statusText, Json.truthy, List.isEmpty_cons, Bool.not_false, if_true,
      pyLast, hlast, pyGetD, hd, Option.getD_some, Except.ok.injEq] at hst
    exact hst.symm

/-- Witness for `record_status_from_actions`: both the empty-actions and
the last-description cases at concrete detail bodies. -/
theorem record_status_from_actions_witness :
    (formatBill (.obj [("actions", .arr [])]) = .ok defaultRecord →
        defaultRecord.status = .str "No recent action found.") ∧
    defaultRecord.status = .str "No recent action found." ∧
    BillRecord.status
      ⟨.str "N/A", .str "N/A", .str "Referred to committee", "N/A",
       .str "No abstract available.", .str "No URL available.", .str "N/A"⟩ =
      .str "Referred to committee" := by
  refine ⟨fun h => (record_status_from_actions [("actions", .arr [])] defaultRecord h).1
    (Or.inr rfl), ?_, ?_⟩
  · exact (record_status_from_actions [("actions", .arr [])] defaultRecord rfl).1 (Or.inr rfl)
  · exact (record_status_from_actions
      [("actions", .arr [.obj [("description", .str "Referred to committee")]])]
      ⟨.str "N/A", .str "N/A", .str "Referred to committee", "N/A",
       .str "No abstract available.", .str "No URL available.", .str "N/A"⟩ rfl).2
      [.obj [("description", .str "Referred to committee")]]
      [("description", .str "Referred to committee")]
      (.str "Referred to committee") rfl rfl rfl

/-- C9: a non-empty `actions` list whose last element has no
`description` key yields status "No description.", not
"No recent action found.". -/
theorem record_status_missing_description (fields : List (String × Json)) (r : BillRecord)
    (h : formatBill (.obj fields) = .ok r) :
    ∀ acts lf, fields.lookup "actions" = some (.arr acts) →
      acts.getLast? = some (.obj lf) → lf.lookup "description" = none →
      r.status = .str "No description." := by
  obtain ⟨st, subs, sd, hst, hsn, hsd, hr⟩ := formatBill_ok_elim fields r h
  subst hr
  intro acts lf hc hlast hd
  rw [hc] at hst
  simp only [Option.getD_some] at hst
  obtain ⟨a, as, rfl⟩ : ∃ a as, acts = a :: as := by
    cases acts with
    | nil => exact absurd hlast (by simp)
    | cons a as => exact ⟨a, as, rfl⟩
  simp only [statusText, Json.truthy, List.isEmpty_cons, Bool.not_false, if_true,
    pyLast, hlast, pyGetD, hd, Option.getD_none, Except.ok.injEq] at hst
  exact hst.symm

/-- Witness for `record_status_missing_description`: a single action with
only a date field. -/
theorem record_status_missing_description_witness :
    BillRecord.status
      ⟨.str "N/A", .str "N/A", .str "No description.", "N/A",
       .str "No abstract available.", .str "No URL available.", .str "N/A"⟩ =
      .str "No description." :=
  record_status_missing_description
    [("actions", .arr [.obj [("date", .str "2025-01-01")]])]
    ⟨.str "N/A", .str "N/A", .str "No description.", "N/A",
     .str "No abstract available.", .str "No URL available.", .str "N/A"⟩ rfl
    [.obj [("date", .str "2025-01-01")]] [("date", .str "2025-01-01")] rfl rfl rfl

/-- The comprehension of line 82 on a list of `{name: ...}` entries keeps
exactly the non-empty names, in order. -/
theorem filterNames_map_subjectEntry (entries : List (Option String)) :
    filterNames (entries.map subjectEntry) =
      .ok (((entries.filterMap id).filter fun n => !n.isEmpty).map Json.str) := by
  induction entries with
  | nil => rfl
  | cons o rest ih =>
      cases o with
      | none =>
          simpa [filterNames, subjectEntry, pyGetD, Json.truthy] using ih
      | some n =>
          by_cases hn : n.isEmpty
          · simp [filterNames, subjectEntry, pyGetD, Json.truthy, hn, ih]
          · simp [filterNames, subjectEntry, pyGetD, Json.truthy, hn, ih]

/-- `".".join` over strings wrapped back into JSON. -/
theorem asStrings_map_str (l : List String) : asStrings (l.map Json.str) = .ok l := by
  induction l with
  | nil => rfl
  | cons s rest ih => simp [asStrings, ih]

/-- `join` over a list of JSON strings is `String.intercalate`. -/
theorem pyJoin_map_str (sep : String) (l : List String) :
    pyJoin sep (l.map Json.str) = .ok (String.intercalate sep l) := by
  simp [pyJoin, asStrings_map_str]

/-- The ternary of line 94 on a non-empty list of string names. -/
theorem subjectsDisplay_map_str_cons (nm : String) (rest : List String) :
    subjectsDisplay ((nm :: rest).map Json.str) =
      .ok (String.intercalate ", " (nm :: rest)) := by
  simp only [subjectsDisplay, List.map_cons, List.isEmpty_cons, Bool.false_eq_true, if_false]
  simpa using pyJoin_map_str ", " (nm :: rest)

/-- C5: the `subjects` field is "N/A" when the detail body has no
`subjects` key, and, for a list of entries with optional names, it is the
comma-join of the non-empty names in original order, or "N/A" when none
survive the filter (missing or empty names). -/
theorem record_subjects_from_names (fields : List (String × Json)) (r : BillRecord)
    (entries : List (Option String))
    (h : formatBill (.obj fields) = .ok r) :
    (fields.lookup "subjects" = none → r.subjects = "N/A") ∧
    (fields.lookup "subjects" = some (.arr (entries.map subjectEntry)) →
      r.subjects =
        if ((entries.filterMap id).filter fun n => !n.isEmpty).isEmpty then "N/A"
        else String.intercalate ", " ((entries.filterMap id).filter fun n => !n.isEmpty)) := by
  obtain ⟨st, subs, sd, hst, hsn, hsd, hr⟩ := formatBill_ok_elim fields r h
  subst hr
  constructor
  · intro hc
    rw [hc] at hsn
    simp only [Option.getD_none] at hsn
    rw [show subjectNames (Json.arr []) = Except.ok ([] : List Json) from rfl] at hsn
    simp only [Except.ok.injEq] at hsn
    subst hsn
    rw [show subjectsDisplay [] = Except.ok "N/A" from rfl] at hsd
    simp only [Except.ok.injEq] at hsd
    exact hsd.symm
  · intro hc
    rw [hc] at hsn
    simp only [Option.getD_some] at hsn
    rw [show subjectNames (Json.arr (entries.map subjectEntry)) =
          filterNames (entries.map subjectEntry) from rfl,
        filterNames_map_subjectEntry] at hsn
    simp only [Except.ok.injEq] at hsn
    subst hsn
    cases hkept : (entries.filterMap id).filter fun n => !n.isEmpty with
    | nil =>
        rw [hkept] at hsd
        rw [show subjectsDisplay (List.map Json.str []) = Except.ok "N/A" from rfl] at hsd
        simp only [Except.ok.injEq] at hsd
        simp [hsd.symm]
    | cons nm rest =>
        rw [hkept] at hsd
        rw [subjectsDisplay_map_str_cons nm rest] at hsd
        simp only [Except.ok.injEq] at hsd
        subst hsd
        simp

/-- Witness for `record_subjects_from_names`: entries with one real name,
one empty name and one missing name keep only the real names; and the
missing-`subjects` case gives "N/A". -/
theorem record_subjects_from_names_witness :
    BillRecord.subjects
      ⟨.str "N/A", .str "N/A", .str "No recent action found.", "Environment, Civil Rights",
       .str "No abstract available.", .str "No URL available.", .str "N/A"⟩ =
      "Environment, Civil Rights" ∧
    defaultRecord.subjects = "N/A" := by
  constructor
  · exact (record_subjects_from_names
      [("subjects", .arr [.obj [("name", .str "Environment")], .obj [("name", .str "")],
        .obj [], .obj [("name", .str "Civil Rights")]])]
      ⟨.str "N/A", .str "N/A", .str "No recent action found.", "Environment, Civil Rights",
       .str "No abstract available.", .str "No URL available.", .str "N/A"⟩
      [some "Environment", some "", none, some "Civil Rights"] rfl).2 rfl
  · exact (record_subjects_from_names [] defaultRecord [] rfl).1 rfl

end LexLearner
